import Mathlib

/-!
Shallow embedding of `src/lib/render/terminal.ts` (`generateTerminalTextTable`)
of the hardhat-gas-reporter repository, together with the constants the file
uses from `src/constants.ts`.

Modelling conventions:

* Cell contents distinguish plain strings, raw JavaScript numbers and the
  JavaScript `undefined` value (`Content.undef`), because the source pushes all
  three into `cli-table3` cells.
* `chalk` styling is modelled literally: at capability level 0 every style is
  the identity on strings (`chalk.level = 0`); at a positive level the text is
  wrapped in the ANSI escape codes chalk emits.
* `String.prototype.localeCompare` is modelled by the definite three-way
  code-point comparison `localeCompare` below, a concrete stand-in for the
  environment's collation.
* `Array.prototype.sort` (in-place and stable) is modelled by
  `List.insertionSort`, which is stable; the render result carries the
  post-call state of the caller's `GasData`, making the in-place sort of
  `data.deployments` observable.
* JavaScript numbers are modelled as `Nat` (gas quantities, call counts) and
  `ℚ` (currency and percentage values); non-null assertions (`x!`) on values
  the source treats as present are modelled with `Option.getD`.
* The `cli-table3` border/style configuration (terminal.ts lines 206-225) and
  the final `table.toString()` serialization belong to the external table
  library; the embedding exposes the assembled grid of rows instead.
-/

/-- Horizontal alignment of a `cli-table3` cell. -/
inductive HAlign where
  | left
  | right
  | center
  deriving DecidableEq

/-- Content of a `cli-table3` cell as the renderer builds it: a string, a raw
JavaScript number (`method.numberOfCalls` is pushed unformatted), or the
JavaScript `undefined` value (pushed when a statistic was never assigned). -/
inductive Content where
  | str (s : String)
  | nat (n : Nat)
  | undef
  deriving DecidableEq

/-- One table cell: `{ hAlign, colSpan, content }`. -/
structure Cell where
  hAlign : HAlign
  colSpan : Nat
  content : Content
  deriving DecidableEq

/-- A table row (`HorizontalTableRow` of `cli-table3`). -/
abbrev HorizontalTableRow := List Cell

/-- `chalk` string styling: at capability level 0 the style is the identity
(chalk with `level = 0` emits no codes); otherwise the text is wrapped in the
ANSI open/close codes of the style. -/
def chalkWrap (lvl : Nat) (openCode closeCode s : String) : String :=
  if lvl = 0 then s else openCode ++ s ++ closeCode

/-- `chalk.grey`. -/
def chalkGrey (lvl : Nat) (s : String) : String :=
  chalkWrap lvl "\x1b[90m" "\x1b[39m" s

/-- `chalk.cyan`. -/
def chalkCyan (lvl : Nat) (s : String) : String :=
  chalkWrap lvl "\x1b[36m" "\x1b[39m" s

/-- `chalk.red`. -/
def chalkRed (lvl : Nat) (s : String) : String :=
  chalkWrap lvl "\x1b[31m" "\x1b[39m" s

/-- `chalk.green`. -/
def chalkGreen (lvl : Nat) (s : String) : String :=
  chalkWrap lvl "\x1b[32m" "\x1b[39m" s

/-- `chalk.magenta`. -/
def chalkMagenta (lvl : Nat) (s : String) : String :=
  chalkWrap lvl "\x1b[35m" "\x1b[39m" s

/-- `chalk.bold`. -/
def chalkBold (lvl : Nat) (s : String) : String :=
  chalkWrap lvl "\x1b[1m" "\x1b[22m" s

/-- `chalk.green.bold`. -/
def chalkGreenBold (lvl : Nat) (s : String) : String :=
  chalkGreen lvl (chalkBold lvl s)

/-- `chalk.magenta.bold`. -/
def chalkMagentaBold (lvl : Nat) (s : String) : String :=
  chalkMagenta lvl (chalkBold lvl s)

/-- `UNICODE_CIRCLE` of `src/constants.ts`. -/
def UNICODE_CIRCLE : String := "◯"

/-- `UNICODE_TRIANGLE` of `src/constants.ts`. -/
def UNICODE_TRIANGLE : String := "△"

/-- Three-way code-point comparison of character lists. -/
def charListCmp : List Char → List Char → Ordering
  | [], [] => .eq
  | [], _ :: _ => .lt
  | _ :: _, [] => .gt
  | a :: as, b :: bs =>
    if a = b then charListCmp as bs
    else if a < b then .lt else .gt

/-- `a.localeCompare(b)`, returning -1, 0 or 1: the definite model of the
environment's collation used by the source's sort comparators. -/
def localeCompare (a b : String) : Int :=
  match charListCmp a.data b.data with
  | .lt => -1
  | .eq => 0
  | .gt => 1

/-- JavaScript number-to-string conversion for the numeric values the table
prints. Only integral values are claim-relevant; non-integral values get a
definite fraction rendering. -/
def jsNumToString (q : ℚ) : String :=
  if q.den = 1 then toString q.num else toString q.num ++ "/" ++ toString q.den

/-- Digit-grouping step of `ethers.utils.commify` on the reversed digit list:
after every three characters (counted from the least significant digit) a
comma is inserted. -/
def commifyChunks : List Char → List Char
  | a :: b :: c :: d :: rest => a :: b :: c :: ',' :: commifyChunks (d :: rest)
  | l => l

/-- `ethers.utils.commify` (the `ethers` dependency): decimal digits grouped
in threes by commas from the right. -/
def commify (n : Nat) : String :=
  String.mk ((commifyChunks (toString n).data.reverse).reverse)

/-- Modelled from the spec: `getSmallestPrecisionVal` of `src/utils/ui.ts` is
not included under `src/`; per the spec's precision-floor rule, "precision 2 ⇒
threshold 0.01", the smallest representable unit at display precision `p` is
`10 ^ (-p)`. -/
def getSmallestPrecisionVal (precision : Nat) : ℚ :=
  1 / (10 : ℚ) ^ precision

/-- Modelled from the spec: `indentText` of `src/utils/ui.ts` is not included
under `src/`; method names are displayed indented under their contract header.
The exact indentation text is not claim-relevant. -/
def indentText (s : String) : String := "  " ++ s

/-- `GasReporterOptions`, restricted to the option fields the renderer reads. -/
structure GasReporterOptions where
  noColors : Bool := false
  outputFile : Option String := none
  darkMode : Bool := false
  L2 : Option String := none
  currency : Option String := some "USD"
  currencyDisplayPrecision : Option Nat := some 2
  gasPrice : Option ℚ := none
  tokenPrice : Option String := none
  showMethodSig : Bool := false
  showUncalledMethods : Bool := false
  rst : Bool := false
  deriving DecidableEq

/-- JavaScript truthiness of an optional string option (`undefined` and the
empty string are falsy). -/
def jsTruthyStr : Option String → Bool
  | none => false
  | some s => s != ""

/-- JavaScript truthiness of an optional numeric option (`undefined` and `0`
are falsy). -/
def jsTruthyQ : Option ℚ → Bool
  | none => false
  | some q => q != 0

/-- JavaScript truthiness of an optional `Nat`-valued field (`undefined` and
`0` are falsy); used for `method.min && method.max`. -/
def jsTruthyNat : Option Nat → Bool
  | none => false
  | some n => n != 0

/-- One entry of `data.methods` (`MethodDataItem` of `src/types`): the fields
the renderer reads. -/
structure MethodDataItem where
  contract : String
  method : String
  fnSig : String
  gasData : List Nat
  numberOfCalls : Nat
  executionGasAverage : Option Nat := none
  calldataGasAverage : Option Nat := none
  min : Option Nat := none
  max : Option Nat := none
  cost : Option ℚ := none
  deriving DecidableEq

/-- One entry of `data.deployments`: the fields the renderer reads. -/
structure Deployment where
  name : String
  gasData : List Nat
  executionGasAverage : Option Nat := none
  calldataGasAverage : Option Nat := none
  min : Option Nat := none
  max : Option Nat := none
  cost : Option ℚ := none
  percent : Option ℚ := none
  deriving DecidableEq

/-- The `GasData` snapshot: `_.forEach(data.methods, ...)` iterates a keyed
collection whose entries can be absent (`if (!method) return`), hence
`Option`; `data.deployments` is an array. -/
structure GasData where
  methods : List (Option MethodDataItem)
  deployments : List Deployment
  deriving DecidableEq

/-- Compiler metadata (`getSolcInfo` output), an external collaborator. -/
structure SolcInfo where
  version : String
  optimizer : String
  viaIR : Bool
  runs : Nat
  deriving DecidableEq

/-- Modelled from the spec: the compiler-info collaborator
(`getSolcInfo`/`hre.config`/`hre.__hhgrec`, not included under `src/`)
supplies version/optimizer/viaIR/runs data and the chain's block gas limit. -/
structure HardhatRuntimeEnvironment where
  solcInfo : SolcInfo
  blockGasLimit : Option Nat
  deriving DecidableEq

/-- `getSolcInfo(hre.config.solidity.compilers[0])`. -/
def getSolcInfo (hre : HardhatRuntimeEnvironment) : SolcInfo :=
  hre.solcInfo

/-- The display strings `getCommonTableVals` returns. -/
structure CommonTableVals where
  l1gwei : String
  l2gwei : String
  l1gweiNote : String
  l2gweiNote : String
  network : String
  rate : String
  currency : String
  token : String
  intrinsicMsg : String
  nonZeroMsg : String
  deriving DecidableEq

/-- Modelled from the spec: `getCommonTableVals` of `src/utils/ui.ts` is not
included under `src/`; it "supplies already-resolved display strings (network
name, gwei values, notes, rate, currency/token labels, legend text)". The
concrete values below are definite placeholders of the right shape; no claim
depends on them. -/
def getCommonTableVals (o : GasReporterOptions) : CommonTableVals :=
  { l1gwei := jsNumToString (o.gasPrice.getD 0)
    l2gwei := jsNumToString (o.gasPrice.getD 0)
    l1gweiNote := ""
    l2gweiNote := ""
    network := "hardhat"
    rate := o.tokenPrice.getD ""
    currency := (o.currency.getD "").toLower
    token := "ETH"
    intrinsicMsg := "Execution gas for this method does not include intrinsic gas overhead"
    nonZeroMsg := "Cost was non-zero but below the precision setting for the currency display" }

/-- `numberOfCols` (terminal.ts lines 33 and 55): 7 columns, 8 in L2 mode;
decided once, before any row is built. -/
def numberOfCols (o : GasReporterOptions) : Nat :=
  if o.L2.isSome then 8 else 7

/-- `blockLimitColumnWidth` (lines 34 and 56). -/
def blockLimitColumnWidth (o : GasReporterOptions) : Nat :=
  if o.L2.isSome then 3 else 2

/-- `deploymentsTitleSpacerWidth` (lines 35 and 57). -/
def deploymentsTitleSpacerWidth (o : GasReporterOptions) : Nat :=
  if o.L2.isSome then 3 else 2

/-- `contractTitleSpacerWidth` (lines 36 and 58). -/
def contractTitleSpacerWidth (o : GasReporterOptions) : Nat :=
  if o.L2.isSome then 6 else 5

/-- `executionGasAverageTitle` (lines 37 and 59). -/
def executionGasAverageTitle (o : GasReporterOptions) : String :=
  if o.L2.isSome then "L2 Avg (Exec)" else "Avg"

/-- `calldataGasAverageTitle` (lines 38 and 60). -/
def calldataGasAverageTitle (o : GasReporterOptions) : String :=
  if o.L2.isSome then "L1 Avg (Data)" else ""

/-- Lines 42-46: the process-wide `chalk.level` set at the start of every
render call — 0 when `options.noColors` is set or an output file is
configured, 1 otherwise. -/
def chalkLevelOf (o : GasReporterOptions) : Nat :=
  if o.noColors || o.outputFile.isSome then 0 else 1

/-- Lines 48-52: `optionalColor` is `chalk.cyan` in dark mode, `chalk.bold`
otherwise. -/
def optionalColor (lvl : Nat) (darkMode : Bool) (s : String) : String :=
  if darkMode then chalkCyan lvl s else chalkBold lvl s

/-- The dynamically typed `stats.cost`: either a string (a placeholder dash or
the below-precision glyph) or a JavaScript number. -/
inductive CostVal where
  | str (v : String)
  | num (v : ℚ)
  deriving DecidableEq

/-- JavaScript `.toString()` on a `stats.cost` value. -/
def CostVal.toStr : CostVal → String
  | .str v => v
  | .num v => jsNumToString v

/-- The per-method `stats` record (lines 90-114). -/
structure MethodStats where
  executionGasAverage : String
  calldataGasAverage : Content
  cost : CostVal
  min : Content
  max : Content
  deriving DecidableEq

/-- Lines 90-114: build the `stats` record for one method — the
called/uncalled branch, then the below-precision override, then the min/max
branch, exactly in source order. -/
def methodStats (o : GasReporterOptions) (lvl : Nat) (m : MethodDataItem) : MethodStats :=
  let base : MethodStats :=
    if m.gasData.length > 0 then
      { executionGasAverage := commify (m.executionGasAverage.getD 0)
        cost := match m.cost with
          | none => .str (chalkGrey lvl "-")
          | some c => .num c
        calldataGasAverage := match m.calldataGasAverage with
          | some v => .str (commify v)
          | none => .str ""
        min := .undef
        max := .undef }
    else
      { executionGasAverage := chalkGrey lvl "-"
        cost := .str (chalkGrey lvl "-")
        calldataGasAverage := .undef
        min := .undef
        max := .undef }
  let withPrecision : MethodStats :=
    match base.cost with
    | .num v =>
      if v < getSmallestPrecisionVal (o.currencyDisplayPrecision.getD 0) then
        { base with cost := .str UNICODE_TRIANGLE }
      else base
    | .str _ => base
  if jsTruthyNat m.min && jsTruthyNat m.max then
    let uniform := m.min.getD 0 == m.max.getD 0
    { withPrecision with
      min := .str (if uniform then chalkGrey lvl "-" else chalkCyan lvl (commify (m.min.getD 0)))
      max := .str (if uniform then chalkGrey lvl "-" else chalkRed lvl (commify (m.max.getD 0))) }
  else withPrecision

/-- Line 116: displayed method name — full signature when
`options.showMethodSig`, short name otherwise. -/
def displayedName (o : GasReporterOptions) (m : MethodDataItem) : String :=
  if o.showMethodSig then m.fnSig else m.method

/-- Lines 119-134: the body row for one method. -/
def buildMethodRow (o : GasReporterOptions) (lvl : Nat) (m : MethodDataItem) :
    HorizontalTableRow :=
  let stats := methodStats o lvl m
  [⟨.left, 2, .str (indentText (displayedName o m))⟩,
   ⟨.right, 1, stats.min⟩,
   ⟨.right, 1, stats.max⟩,
   ⟨.right, 1, .str stats.executionGasAverage⟩]
  ++ (if o.L2.isSome then [⟨.right, 1, stats.calldataGasAverage⟩] else [])
  ++ [⟨.right, 1, .nat m.numberOfCalls⟩,
      ⟨.right, 1, .str (chalkGreen lvl stats.cost.toStr)⟩]

/-- A `Section`: a formatted row paired with its sort keys (terminal.ts line
18). -/
structure Section where
  row : HorizontalTableRow
  contractName : String
  methodName : String
  deriving DecidableEq

/-- Lines 79-86: the contract-header `Section`, whose sentinel method key is
the string `"0"`. -/
def contractNameSection (o : GasReporterOptions) (lvl : Nat) (c : String) : Section :=
  { row := [⟨.left, 2, .str (optionalColor lvl o.darkMode c)⟩,
            ⟨.left, contractTitleSpacerWidth o, .str ""⟩]
    contractName := c
    methodName := "0" }

/-- The method-row `Section` (lines 136-140). -/
def methodSection (o : GasReporterOptions) (lvl : Nat) (m : MethodDataItem) : Section :=
  { row := buildMethodRow o lvl m
    contractName := m.contract
    methodName := displayedName o m }

/-- The `Section`s one `data.methods` entry contributes (lines 76-143): a
contract header when the contract is new and the method has recorded calls,
then the method row unless it is uncalled and `showUncalledMethods` is off. -/
def methodSectionsFor (o : GasReporterOptions) (lvl : Nat) (added : List String)
    (m : MethodDataItem) : List Section :=
  (if !added.contains m.contract && m.gasData.length > 0 then
    [contractNameSection o lvl m.contract]
   else [])
  ++ (if o.showUncalledMethods || m.numberOfCalls > 0 then
        [methodSection o lvl m]
      else [])

/-- The `addedContracts` accumulator after one entry (line 77). -/
def addedAfter1 (added : List String) (m : MethodDataItem) : List String :=
  if !added.contains m.contract && m.gasData.length > 0 then added ++ [m.contract]
  else added

/-- Lines 69-144: the `_.forEach(data.methods, ...)` loop assembling
`methodRows`, threading the `addedContracts` accumulator; absent entries are
skipped (`if (!method) return`). -/
def processMethods (o : GasReporterOptions) (lvl : Nat) :
    List (Option MethodDataItem) → List String → List Section
  | [], _ => []
  | none :: rest, added => processMethods o lvl rest added
  | some m :: rest, added =>
    methodSectionsFor o lvl added m ++ processMethods o lvl rest (addedAfter1 added m)

/-- The `addedContracts` accumulator after a list of entries. -/
def addedAfter : List (Option MethodDataItem) → List String → List String
  | [], added => added
  | none :: rest, added => addedAfter rest added
  | some m :: rest, added => addedAfter rest (addedAfter1 added m)

/-- JavaScript `x || y` on comparator results (numbers): `x` unless it is `0`. -/
def jsOrInt (x y : Int) : Int :=
  if x = 0 then y else x

/-- Lines 362-366: the `methodRows.sort` comparator —
`contractName.localeCompare || methodName.localeCompare`. -/
def sectionComparator (a b : Section) : Int :=
  jsOrInt (localeCompare a.contractName b.contractName)
    (localeCompare a.methodName b.methodName)

/-- The ordering `methodRows.sort` establishes: comparator at most zero. -/
def sectionRel (a b : Section) : Prop :=
  sectionComparator a b ≤ 0

instance : DecidableRel sectionRel := fun a b =>
  inferInstanceAs (Decidable (sectionComparator a b ≤ 0))

/-- Line 151: the `data.deployments.sort` comparator ordering —
`a.name.localeCompare(b.name)` at most zero. -/
def deploymentRel (a b : Deployment) : Prop :=
  localeCompare a.name b.name ≤ 0

instance : DecidableRel deploymentRel := fun a b =>
  inferInstanceAs (Decidable (localeCompare a.name b.name ≤ 0))

/-- The per-deployment `stats` record (lines 154-172). -/
structure DeployStats where
  cost : CostVal
  calldataGasAverage : Content
  min : Content
  max : Content
  deriving DecidableEq

/-- Lines 154-172: build the `stats` record for one deployment. -/
def deployStats (o : GasReporterOptions) (lvl : Nat) (d : Deployment) : DeployStats :=
  let base : DeployStats :=
    { cost := match d.cost with
        | none => .str (chalkGrey lvl "-")
        | some c => .num c
      calldataGasAverage := match d.calldataGasAverage with
        | none => .str ""
        | some v => .str (commify v)
      min := .undef
      max := .undef }
  let withPrecision : DeployStats :=
    match base.cost with
    | .num v =>
      if v < getSmallestPrecisionVal (o.currencyDisplayPrecision.getD 0) then
        { base with cost := .str UNICODE_TRIANGLE }
      else base
    | .str _ => base
  if jsTruthyNat d.min && jsTruthyNat d.max then
    let uniform := d.min.getD 0 == d.max.getD 0
    { withPrecision with
      min := .str (if uniform then chalkGrey lvl "-" else chalkCyan lvl (commify (d.min.getD 0)))
      max := .str (if uniform then chalkGrey lvl "-" else chalkRed lvl (commify (d.max.getD 0))) }
  else withPrecision

/-- Lines 174-195: the body row for one deployment. -/
def buildDeployRow (o : GasReporterOptions) (lvl : Nat) (d : Deployment) :
    HorizontalTableRow :=
  let stats := deployStats o lvl d
  [⟨.left, 2, .str (chalkBold lvl d.name)⟩,
   ⟨.right, 1, stats.min⟩,
   ⟨.right, 1, stats.max⟩,
   ⟨.right, 1, .str (commify (d.executionGasAverage.getD 0))⟩]
  ++ (if o.L2.isSome then [⟨.right, 1, stats.calldataGasAverage⟩] else [])
  ++ [⟨.right, 1, .str (jsNumToString (d.percent.getD 0) ++ " %")⟩,
      ⟨.right, 1, .str (chalkGreen lvl stats.cost.toStr)⟩]

/-- Lines 153-196: `deployRows` — iterate the (already sorted) deployments,
skipping any record with no recorded calls. -/
def deployRowsOf (o : GasReporterOptions) (lvl : Nat) (sortedDeps : List Deployment) :
    List HorizontalTableRow :=
  (sortedDeps.filter (fun d => d.gasData.length > 0)).map (buildDeployRow o lvl)

/-- Lines 227-233: the title row. -/
def titleRow (o : GasReporterOptions) (lvl : Nat) : HorizontalTableRow :=
  [⟨.left, numberOfCols o, .str (chalkGreenBold lvl "Solidity and Network Configuration")⟩]

/-- Lines 241-267: the compiler/config summary row. -/
def solcConfigRow (hre : HardhatRuntimeEnvironment) (o : GasReporterOptions) (lvl : Nat) :
    HorizontalTableRow :=
  let solc := getSolcInfo hre
  [⟨.left, 2, .str (chalkCyan lvl ("Solidity: " ++ solc.version))⟩,
   ⟨.left, 1, .str (chalkCyan lvl ("Optimizer: " ++ solc.optimizer))⟩,
   ⟨.left, 1, .str (chalkCyan lvl ("viaIR: " ++ toString solc.viaIR))⟩,
   ⟨.left, 1, .str (chalkCyan lvl ("Runs: " ++ toString solc.runs))⟩,
   ⟨.center, blockLimitColumnWidth o,
    .str (chalkCyan lvl ("Block limit: " ++ commify (hre.blockGasLimit.getD 0) ++ " gas"))⟩]

/-- Lines 272-318: the network/price summary row — the full configuration row
when both `tokenPrice` and `gasPrice` are truthy, otherwise a single "Methods"
banner cell spanning all columns. -/
def networkConfigRow (o : GasReporterOptions) (lvl : Nat) : HorizontalTableRow :=
  if jsTruthyStr o.tokenPrice && jsTruthyQ o.gasPrice then
    let v := getCommonTableVals o
    [⟨.left, 2, .str (chalkCyan lvl ("Network: " ++ v.network))⟩,
     ⟨.left, 2, .str (chalkCyan lvl ("L1: " ++ v.l1gwei ++ " gwei " ++ v.l1gweiNote))⟩]
    ++ (if o.L2.isSome then
          [⟨.left, 2, .str (chalkCyan lvl ("L2: " ++ v.l2gwei ++ " gwei " ++ v.l2gweiNote))⟩]
        else
          [⟨.left, 1, .str " "⟩])
    ++ [⟨.center, 2, .str (chalkMagenta lvl (v.rate ++ " " ++ v.currency ++ "/" ++ v.token))⟩]
  else
    [⟨.left, numberOfCols o, .str (chalkGreenBold lvl "Methods")⟩]

/-- Lines 323-334: the methods header row. -/
def methodsHeaderRow (o : GasReporterOptions) (lvl : Nat) : HorizontalTableRow :=
  [⟨.left, 2, .str (chalkGreenBold lvl "Contracts / Methods")⟩,
   ⟨.left, 1, .str (chalkBold lvl "Min")⟩,
   ⟨.left, 1, .str (chalkBold lvl "Max")⟩,
   ⟨.left, 1, .str (chalkBold lvl (executionGasAverageTitle o))⟩]
  ++ (if o.L2.isSome then [⟨.left, 1, .str (chalkBold lvl (calldataGasAverageTitle o))⟩]
      else [])
  ++ [⟨.left, 1, .str (chalkBold lvl "# calls")⟩,
      ⟨.left, 1, .str (chalkBold lvl ((o.currency.getD "").toLower ++ " (avg)"))⟩]

/-- Lines 344-346: the "Key" banner row. -/
def keyTitleRow (o : GasReporterOptions) (lvl : Nat) : HorizontalTableRow :=
  [⟨.left, numberOfCols o, .str (chalkGreenBold lvl "Key")⟩]

/-- Lines 347-349: the intrinsic-gas legend row. -/
def keyCallRow (o : GasReporterOptions) (lvl : Nat) : HorizontalTableRow :=
  [⟨.left, numberOfCols o,
    .str (chalkMagentaBold lvl UNICODE_CIRCLE ++ "  " ++ (getCommonTableVals o).intrinsicMsg)⟩]

/-- Lines 350-352: the below-precision legend row. -/
def keyAirRow (o : GasReporterOptions) (lvl : Nat) : HorizontalTableRow :=
  [⟨.left, numberOfCols o,
    .str (chalkMagentaBold lvl UNICODE_TRIANGLE ++ "  " ++ (getCommonTableVals o).nonZeroMsg)⟩]

/-- Lines 372-382: the deployments subtitle row. -/
def deploymentsSubtitleRow (o : GasReporterOptions) (lvl : Nat) : HorizontalTableRow :=
  [⟨.left, 3, .str (chalkGreenBold lvl "Deployments")⟩,
   ⟨.right, deploymentsTitleSpacerWidth o, .str ""⟩,
   ⟨.left, 1, .str (chalkBold lvl "% of limit")⟩,
   ⟨.left, 1, .str ""⟩]

/-- The observable outcome of one render call: the assembled grid, the
caller's `GasData` as it stands after the call (the source sorts
`data.deployments` in place), and the process-wide `chalk.level` the call
leaves behind. -/
structure RenderResult where
  table : List HorizontalTableRow
  dataAfter : GasData
  chalkLevel : Nat
  deriving DecidableEq

/-- Lines 69-144 and 362-366 combined: the method sections as they end up in
the table — assembled in snapshot order, then sorted by the
contract/method-name comparator (`Array.prototype.sort` is stable, as is
`List.insertionSort`). -/
def sortedMethodSections (o : GasReporterOptions) (lvl : Nat)
    (l : List (Option MethodDataItem)) : List Section :=
  List.insertionSort sectionRel (processMethods o lvl l [])

/-- `generateTerminalTextTable` (terminal.ts lines 27-392). The first argument
is the process-wide `chalk.level` on entry; the source overwrites it before
any use, so the result cannot depend on it. -/
def generateTerminalTextTable (chalkLevelBefore : Nat) (hre : HardhatRuntimeEnvironment)
    (data : GasData) (o : GasReporterOptions) : RenderResult :=
  let _ := chalkLevelBefore
  let lvl := chalkLevelOf o
  let sortedDeps := List.insertionSort deploymentRel data.deployments
  let deployRows := deployRowsOf o lvl sortedDeps
  let sortedMethodRows := sortedMethodSections o lvl data.methods
  let table :=
    [titleRow o lvl, solcConfigRow hre o lvl, networkConfigRow o lvl, methodsHeaderRow o lvl]
    ++ sortedMethodRows.map Section.row
    ++ (if deployRows.length > 0 then deploymentsSubtitleRow o lvl :: deployRows else [])
    ++ [keyTitleRow o lvl, keyCallRow o lvl, keyAirRow o lvl]
  { table := table
    dataAfter := { methods := data.methods, deployments := sortedDeps }
    chalkLevel := lvl }

/-- The total column span of a row. -/
def spanSum (row : HorizontalTableRow) : Nat :=
  (row.map Cell.colSpan).sum

/-! Order-theoretic facts about the comparator model. -/

theorem charListCmp_self : ∀ as : List Char, charListCmp as as = .eq
  | [] => rfl
  | a :: as => by simp [charListCmp, charListCmp_self as]

theorem charListCmp_eq : ∀ {as bs : List Char}, charListCmp as bs = .eq → as = bs
  | [], [], _ => rfl
  | [], _ :: _, h => by simp [charListCmp] at h
  | _ :: _, [], h => by simp [charListCmp] at h
  | a :: as, b :: bs, h => by
    by_cases hab : a = b
    · simp only [charListCmp, if_pos hab] at h
      rw [hab, charListCmp_eq h]
    · simp only [charListCmp, if_neg hab] at h
      by_cases hlt : a < b
      · rw [if_pos hlt] at h
        exact absurd h (by decide)
      · rw [if_neg hlt] at h
        exact absurd h (by decide)

theorem charListCmp_swap : ∀ as bs : List Char, charListCmp bs as = (charListCmp as bs).swap
  | [], [] => rfl
  | [], _ :: _ => rfl
  | _ :: _, [] => rfl
  | a :: as, b :: bs => by
    simp only [charListCmp]
    by_cases hab : a = b
    · rw [if_pos hab, if_pos hab.symm, charListCmp_swap as bs]
    · have hba : b ≠ a := fun hh => hab hh.symm
      rw [if_neg hab, if_neg hba]
      rcases lt_or_gt_of_ne hab with hlt | hgt
      · rw [if_pos hlt, if_neg (not_lt_of_gt hlt)]
        rfl
      · rw [if_neg (not_lt_of_gt hgt), if_pos hgt]
        rfl

theorem charListCmp_lt_trans : ∀ as bs cs : List Char, charListCmp as bs = .lt →
    charListCmp bs cs = .lt → charListCmp as cs = .lt
  | [], [], _, h1, _ => by simp [charListCmp] at h1
  | [], _ :: _, [], _, h2 => by simp [charListCmp] at h2
  | [], _ :: _, _ :: _, _, _ => rfl
  | _ :: _, [], _, h1, _ => by simp [charListCmp] at h1
  | _ :: _, _ :: _, [], _, h2 => by simp [charListCmp] at h2
  | a :: as, b :: bs, c :: cs, h1, h2 => by
    simp only [charListCmp] at h1 h2 ⊢
    by_cases hab : a = b
    · rw [if_pos hab] at h1
      by_cases hbc : b = c
      · rw [if_pos hbc] at h2
        rw [if_pos (hab.trans hbc)]
        exact charListCmp_lt_trans as bs cs h1 h2
      · rw [if_neg hbc] at h2
        have hbc' : b < c := by
          by_contra hh
          rw [if_neg hh] at h2
          exact absurd h2 (by decide)
        have hac : a ≠ c := by
          rw [hab]
          exact hbc
        have hac' : a < c := by
          rw [hab]
          exact hbc'
        rw [if_neg hac, if_pos hac']
    · have hab' : a < b := by
        by_contra hh
        rw [if_neg hab, if_neg hh] at h1
        exact absurd h1 (by decide)
      by_cases hbc : b = c
      · have hac : a ≠ c := by
          rw [← hbc]
          exact hab
        have hac' : a < c := by
          rw [← hbc]
          exact hab'
        rw [if_neg hac, if_pos hac']
      · have hbc' : b < c := by
          by_contra hh
          rw [if_neg hbc, if_neg hh] at h2
          exact absurd h2 (by decide)
        have hac' : a < c := lt_trans hab' hbc'
        rw [if_neg (ne_of_lt hac'), if_pos hac']

theorem localeCompare_self (a : String) : localeCompare a a = 0 := by
  simp [localeCompare, charListCmp_self]

theorem localeCompare_eq_zero {a b : String} (h : localeCompare a b = 0) : a = b := by
  unfold localeCompare at h
  cases hc : charListCmp a.data b.data with
  | lt => rw [hc] at h; exact absurd h (by decide)
  | eq =>
    have hd := charListCmp_eq hc
    cases a
    cases b
    exact congrArg String.mk hd
  | gt => rw [hc] at h; exact absurd h (by decide)

theorem localeCompare_neg_iff {a b : String} :
    localeCompare a b < 0 ↔ charListCmp a.data b.data = .lt := by
  unfold localeCompare
  cases h : charListCmp a.data b.data
  · exact ⟨fun _ => rfl, fun _ => by decide⟩
  · exact ⟨fun hh => absurd hh (by decide), fun hh => absurd hh (by decide)⟩
  · exact ⟨fun hh => absurd hh (by decide), fun hh => absurd hh (by decide)⟩

theorem localeCompare_lt_trans {a b c : String} (h1 : localeCompare a b < 0)
    (h2 : localeCompare b c < 0) : localeCompare a c < 0 := by
  rw [localeCompare_neg_iff] at h1 h2 ⊢
  exact charListCmp_lt_trans _ _ _ h1 h2

theorem localeCompare_le_trans {a b c : String} (h1 : localeCompare a b ≤ 0)
    (h2 : localeCompare b c ≤ 0) : localeCompare a c ≤ 0 := by
  rcases lt_or_eq_of_le h1 with hlt1 | heq1
  · rcases lt_or_eq_of_le h2 with hlt2 | heq2
    · exact le_of_lt (localeCompare_lt_trans hlt1 hlt2)
    · rw [← localeCompare_eq_zero heq2]
      exact h1
  · rw [localeCompare_eq_zero heq1]
    exact h2

theorem localeCompare_total (a b : String) : localeCompare a b ≤ 0 ∨ localeCompare b a ≤ 0 := by
  unfold localeCompare
  rw [charListCmp_swap a.data b.data]
  cases charListCmp a.data b.data
  · exact Or.inl (by decide)
  · exact Or.inl (by decide)
  · exact Or.inr (by decide)

theorem localeCompare_swap (a b : String) : localeCompare b a = -(localeCompare a b) := by
  unfold localeCompare
  rw [charListCmp_swap a.data b.data]
  cases charListCmp a.data b.data <;> decide

instance : IsTrans Section sectionRel := by
  constructor
  intro a b c h1 h2
  unfold sectionRel sectionComparator jsOrInt at h1 h2 ⊢
  by_cases hc1 : localeCompare a.contractName b.contractName = 0
  · have hab := localeCompare_eq_zero hc1
    rw [if_pos hc1] at h1
    by_cases hc2 : localeCompare b.contractName c.contractName = 0
    · have hbc := localeCompare_eq_zero hc2
      rw [if_pos hc2] at h2
      have hac : localeCompare a.contractName c.contractName = 0 := by
        rw [hab, hbc]
        exact localeCompare_self _
      rw [if_pos hac]
      exact localeCompare_le_trans h1 h2
    · rw [if_neg hc2] at h2
      rw [hab, if_neg hc2]
      exact h2
  · rw [if_neg hc1] at h1
    have h1' : localeCompare a.contractName b.contractName < 0 := lt_of_le_of_ne h1 hc1
    by_cases hc2 : localeCompare b.contractName c.contractName = 0
    · have hbc := localeCompare_eq_zero hc2
      rw [← hbc, if_neg hc1]
      exact h1
    · rw [if_neg hc2] at h2
      have h2' : localeCompare b.contractName c.contractName < 0 := lt_of_le_of_ne h2 hc2
      have hac : localeCompare a.contractName c.contractName < 0 :=
        localeCompare_lt_trans h1' h2'
      rw [if_neg (ne_of_lt hac)]
      exact le_of_lt hac

instance : IsTotal Section sectionRel := by
  constructor
  intro a b
  unfold sectionRel sectionComparator jsOrInt
  by_cases hc : localeCompare a.contractName b.contractName = 0
  · have hab := localeCompare_eq_zero hc
    have hc' : localeCompare b.contractName a.contractName = 0 := by
      rw [hab]
      exact localeCompare_self _
    rw [if_pos hc, if_pos hc']
    exact localeCompare_total a.methodName b.methodName
  · have hc' : localeCompare b.contractName a.contractName ≠ 0 := by
      intro hh
      have heq := localeCompare_eq_zero hh
      exact hc (by rw [heq]; exact localeCompare_self _)
    rw [if_neg hc, if_neg hc']
    exact localeCompare_total a.contractName b.contractName

instance : IsTrans Deployment deploymentRel := by
  constructor
  intro a b c h1 h2
  exact localeCompare_le_trans h1 h2

instance : IsTotal Deployment deploymentRel := by
  constructor
  intro a b
  exact localeCompare_total a.name b.name

/-! Structural facts about the method-section assembly. -/

/-- A contract-header section is recognizable by its two-cell row; method body
rows always have seven or eight cells. -/
def isHeaderSection (s : Section) : Bool := s.row.length == 2

/-- Number of contract-header sections for contract `c`. -/
def headerCount (c : String) (l : List Section) : Nat :=
  l.countP (fun s => isHeaderSection s && s.contractName == c)

/-- Number of method body-row sections for contract `c`. -/
def methodRowCount (c : String) (l : List Section) : Nat :=
  l.countP (fun s => !isHeaderSection s && s.contractName == c)

/-- Whether the method list holds a record of contract `c` with recorded
calls. -/
def hasCalledRecord (c : String) (l : List (Option MethodDataItem)) : Bool :=
  l.any fun om => match om with
    | some m => m.contract == c && decide (0 < m.gasData.length)
    | none => false

theorem buildMethodRow_length (o : GasReporterOptions) (lvl : Nat) (m : MethodDataItem) :
    (buildMethodRow o lvl m).length = if o.L2.isSome then 7 else 6 := by
  unfold buildMethodRow
  cases h : o.L2.isSome <;> simp [h]

theorem isHeaderSection_methodSection (o : GasReporterOptions) (lvl : Nat)
    (m : MethodDataItem) : isHeaderSection (methodSection o lvl m) = false := by
  cases hL : o.L2.isSome <;>
    simp [isHeaderSection, methodSection, buildMethodRow_length, hL]

theorem isHeaderSection_contractNameSection (o : GasReporterOptions) (lvl : Nat)
    (c : String) : isHeaderSection (contractNameSection o lvl c) = true := by
  simp [isHeaderSection, contractNameSection]

theorem contractNameSection_contractName (o : GasReporterOptions) (lvl : Nat) (c : String) :
    (contractNameSection o lvl c).contractName = c := rfl

theorem contractNameSection_methodName (o : GasReporterOptions) (lvl : Nat) (c : String) :
    (contractNameSection o lvl c).methodName = "0" := rfl

theorem methodSection_contractName (o : GasReporterOptions) (lvl : Nat) (m : MethodDataItem) :
    (methodSection o lvl m).contractName = m.contract := rfl

theorem methodSection_methodName (o : GasReporterOptions) (lvl : Nat) (m : MethodDataItem) :
    (methodSection o lvl m).methodName = displayedName o m := rfl

theorem methodSection_row (o : GasReporterOptions) (lvl : Nat) (m : MethodDataItem) :
    (methodSection o lvl m).row = buildMethodRow o lvl m := rfl

theorem processMethods_append (o : GasReporterOptions) (lvl : Nat) :
    ∀ (l₁ l₂ : List (Option MethodDataItem)) (added : List String),
      processMethods o lvl (l₁ ++ l₂) added =
        processMethods o lvl l₁ added ++ processMethods o lvl l₂ (addedAfter l₁ added)
  | [], _, _ => rfl
  | none :: rest, l₂, added => by
    simp only [List.cons_append, processMethods, addedAfter]
    exact processMethods_append o lvl rest l₂ added
  | some m :: rest, l₂, added => by
    simp only [List.cons_append, processMethods, addedAfter, List.append_eq]
    rw [processMethods_append o lvl rest l₂ (addedAfter1 added m), List.append_assoc]

theorem mem_addedAfter1 (c : String) (added : List String) (m : MethodDataItem) :
    c ∈ addedAfter1 added m ↔
      c ∈ added ∨ ((m.contract ∉ added ∧ 0 < m.gasData.length) ∧ m.contract = c) := by
  unfold addedAfter1
  by_cases hP : m.contract ∈ added
  · simp [hP]
  · by_cases hG : 0 < m.gasData.length
    · simp [hP, hG, eq_comm]
    · simp [hP, hG]

theorem mem_addedAfter (c : String) :
    ∀ (l : List (Option MethodDataItem)) (added : List String),
      c ∈ addedAfter l added ↔ c ∈ added ∨ hasCalledRecord c l = true
  | [], added => by simp [addedAfter, hasCalledRecord]
  | none :: rest, added => by
    rw [show addedAfter (none :: rest) added = addedAfter rest added from rfl,
      mem_addedAfter c rest added]
    simp [hasCalledRecord]
  | some m :: rest, added => by
    rw [show addedAfter (some m :: rest) added = addedAfter rest (addedAfter1 added m) from rfl,
      mem_addedAfter c rest (addedAfter1 added m), mem_addedAfter1]
    have hrec : hasCalledRecord c (some m :: rest) =
        ((m.contract == c && decide (0 < m.gasData.length)) || hasCalledRecord c rest) := by
      simp [hasCalledRecord]
    rw [hrec]
    simp only [Bool.or_eq_true, Bool.and_eq_true, beq_iff_eq, decide_eq_true_eq]
    constructor
    · rintro ((h | ⟨⟨hP, hG⟩, hE⟩) | h)
      · exact Or.inl h
      · exact Or.inr (Or.inl ⟨hE, hG⟩)
      · exact Or.inr (Or.inr h)
    · rintro (h | ⟨hE, hG⟩ | h)
      · exact Or.inl (Or.inl h)
      · by_cases hP : m.contract ∈ added
        · exact Or.inl (Or.inl (hE ▸ hP))
        · exact Or.inl (Or.inr ⟨⟨hP, hG⟩, hE⟩)
      · exact Or.inr h

theorem countP_ite_singleton {α : Type} (p : α → Bool) (b : Prop) [Decidable b] (x : α) :
    (if b then [x] else []).countP p = if b ∧ p x = true then 1 else 0 := by
  by_cases hb : b <;> by_cases hp : p x = true <;> simp [hb, hp]

theorem headerCount_methodSectionsFor (o : GasReporterOptions) (lvl : Nat)
    (added : List String) (m : MethodDataItem) (c : String) :
    headerCount c (methodSectionsFor o lvl added m) =
      if m.contract ∉ added ∧ 0 < m.gasData.length ∧ m.contract = c then 1 else 0 := by
  unfold headerCount methodSectionsFor
  rw [List.countP_append, countP_ite_singleton, countP_ite_singleton]
  by_cases hP : m.contract ∈ added <;> by_cases hG : 0 < m.gasData.length <;>
    by_cases hE : m.contract = c <;>
      simp [hP, hG, hE, isHeaderSection_methodSection, isHeaderSection_contractNameSection,
        contractNameSection_contractName]

theorem methodRowCount_methodSectionsFor (o : GasReporterOptions) (lvl : Nat)
    (added : List String) (m : MethodDataItem) (c : String) :
    methodRowCount c (methodSectionsFor o lvl added m) =
      if (o.showUncalledMethods = true ∨ 0 < m.numberOfCalls) ∧ m.contract = c then 1
      else 0 := by
  unfold methodRowCount methodSectionsFor
  rw [List.countP_append, countP_ite_singleton, countP_ite_singleton]
  by_cases hU : o.showUncalledMethods = true <;> by_cases hN : 0 < m.numberOfCalls <;>
    by_cases hE : m.contract = c <;>
      simp [hU, hN, hE, isHeaderSection_methodSection, isHeaderSection_contractNameSection,
        methodSection_contractName]

theorem headerCount_processMethods (o : GasReporterOptions) (lvl : Nat) (c : String) :
    ∀ (l : List (Option MethodDataItem)) (added : List String),
      headerCount c (processMethods o lvl l added) =
        if c ∈ added then 0 else if hasCalledRecord c l = true then 1 else 0
  | [], added => by
    simp [processMethods, headerCount, hasCalledRecord]
  | none :: rest, added => by
    rw [show processMethods o lvl (none :: rest) added = processMethods o lvl rest added
        from rfl,
      headerCount_processMethods o lvl c rest added]
    simp [hasCalledRecord]
  | some m :: rest, added => by
    rw [show processMethods o lvl (some m :: rest) added =
        methodSectionsFor o lvl added m ++ processMethods o lvl rest (addedAfter1 added m)
        from rfl]
    have h1 := headerCount_methodSectionsFor o lvl added m c
    have h2 := headerCount_processMethods o lvl c rest (addedAfter1 added m)
    unfold headerCount at h1 h2 ⊢
    rw [List.countP_append, h1, h2]
    simp only [mem_addedAfter1 c added m]
    have hrec : hasCalledRecord c (some m :: rest) =
        ((m.contract == c && decide (0 < m.gasData.length)) || hasCalledRecord c rest) := by
      simp [hasCalledRecord]
    rw [hrec]
    by_cases hE : m.contract = c
    · subst hE
      by_cases hP : m.contract ∈ added <;> by_cases hG : 0 < m.gasData.length <;>
        by_cases hR : hasCalledRecord m.contract rest = true <;>
          simp [hP, hG, hR]
    · by_cases hP : m.contract ∈ added <;> by_cases hG : 0 < m.gasData.length <;>
        by_cases hA : c ∈ added <;> by_cases hR : hasCalledRecord c rest = true <;>
          simp [hP, hG, hA, hR, hE]

theorem methodRowCount_processMethods (o : GasReporterOptions) (lvl : Nat) (c : String) :
    ∀ (l : List (Option MethodDataItem)) (added : List String),
      methodRowCount c (processMethods o lvl l added) =
        l.countP (fun om => match om with
          | some m =>
            decide ((o.showUncalledMethods = true ∨ 0 < m.numberOfCalls) ∧ m.contract = c)
          | none => false)
  | [], added => by simp [processMethods, methodRowCount]
  | none :: rest, added => by
    rw [show processMethods o lvl (none :: rest) added = processMethods o lvl rest added
        from rfl,
      methodRowCount_processMethods o lvl c rest added]
    simp
  | some m :: rest, added => by
    rw [show processMethods o lvl (some m :: rest) added =
        methodSectionsFor o lvl added m ++ processMethods o lvl rest (addedAfter1 added m)
        from rfl]
    have h1 := methodRowCount_methodSectionsFor o lvl added m c
    have h2 := methodRowCount_processMethods o lvl c rest (addedAfter1 added m)
    unfold methodRowCount at h1 h2 ⊢
    rw [List.countP_append, h1, h2, List.countP_cons]
    by_cases hcond : (o.showUncalledMethods = true ∨ 0 < m.numberOfCalls) ∧ m.contract = c <;>
      simp [hcond, Nat.add_comm]

theorem mem_processMethods (o : GasReporterOptions) (lvl : Nat) :
    ∀ {l : List (Option MethodDataItem)} {added : List String} {s : Section},
      s ∈ processMethods o lvl l added →
      ∃ m, some m ∈ l ∧ m.contract = s.contractName ∧
        ((s = contractNameSection o lvl m.contract ∧ 0 < m.gasData.length) ∨
         (s = methodSection o lvl m ∧ (o.showUncalledMethods = true ∨ 0 < m.numberOfCalls)))
  | [], _, s, h => absurd h (List.not_mem_nil s)
  | none :: rest, added, s, h => by
    obtain ⟨m, hm, hrest⟩ := @mem_processMethods o lvl rest added _ h
    exact ⟨m, List.mem_cons_of_mem _ hm, hrest⟩
  | some m :: rest, added, s, h => by
    rcases List.mem_append.mp h with hmem | hmem
    · unfold methodSectionsFor at hmem
      rcases List.mem_append.mp hmem with hpart | hpart
      · split at hpart
        case isTrue hcond =>
          rw [List.mem_singleton] at hpart
          subst hpart
          simp only [Bool.and_eq_true, Bool.not_eq_true', decide_eq_true_eq] at hcond
          exact ⟨m, List.mem_cons_self _ _, rfl,
            Or.inl ⟨rfl, hcond.2⟩⟩
        case isFalse => simp at hpart
      · split at hpart
        case isTrue hcond =>
          rw [List.mem_singleton] at hpart
          subst hpart
          simp only [Bool.or_eq_true, decide_eq_true_eq] at hcond
          exact ⟨m, List.mem_cons_self _ _, rfl, Or.inr ⟨rfl, hcond⟩⟩
        case isFalse => simp at hpart
    · obtain ⟨m', hm', hrest⟩ :=
        @mem_processMethods o lvl rest (addedAfter1 added m) _ hmem
      exact ⟨m', List.mem_cons_of_mem _ hm', hrest⟩

/-! Column-span facts. -/

theorem spanSum_buildMethodRow (o : GasReporterOptions) (lvl : Nat) (m : MethodDataItem) :
    spanSum (buildMethodRow o lvl m) = numberOfCols o := by
  unfold spanSum buildMethodRow numberOfCols
  cases h : o.L2.isSome <;> simp [h]

theorem spanSum_contractNameSection (o : GasReporterOptions) (lvl : Nat) (c : String) :
    spanSum (contractNameSection o lvl c).row = numberOfCols o := by
  unfold spanSum contractNameSection numberOfCols contractTitleSpacerWidth
  cases h : o.L2.isSome <;> simp [h]

theorem spanSum_processMethods (o : GasReporterOptions) (lvl : Nat)
    {l : List (Option MethodDataItem)} {added : List String} {s : Section}
    (h : s ∈ processMethods o lvl l added) : spanSum s.row = numberOfCols o := by
  obtain ⟨m, -, -, hcase⟩ := mem_processMethods o lvl h
  rcases hcase with ⟨heq, -⟩ | ⟨heq, -⟩
  · rw [heq]
    exact spanSum_contractNameSection o lvl m.contract
  · rw [heq, methodSection_row]
    exact spanSum_buildMethodRow o lvl m

theorem spanSum_buildDeployRow (o : GasReporterOptions) (lvl : Nat) (d : Deployment) :
    spanSum (buildDeployRow o lvl d) = numberOfCols o := by
  unfold spanSum buildDeployRow numberOfCols
  cases h : o.L2.isSome <;> simp [h]

theorem spanSum_titleRow (o : GasReporterOptions) (lvl : Nat) :
    spanSum (titleRow o lvl) = numberOfCols o := by
  simp [spanSum, titleRow]

theorem spanSum_solcConfigRow (hre : HardhatRuntimeEnvironment) (o : GasReporterOptions)
    (lvl : Nat) : spanSum (solcConfigRow hre o lvl) = numberOfCols o := by
  unfold spanSum solcConfigRow numberOfCols blockLimitColumnWidth
  cases h : o.L2.isSome <;> simp [h]

theorem spanSum_networkConfigRow (o : GasReporterOptions) (lvl : Nat) :
    spanSum (networkConfigRow o lvl) = numberOfCols o := by
  unfold spanSum networkConfigRow numberOfCols
  by_cases hb : (jsTruthyStr o.tokenPrice && jsTruthyQ o.gasPrice) = true <;>
    cases h : o.L2.isSome <;> simp [hb, h]

theorem spanSum_methodsHeaderRow (o : GasReporterOptions) (lvl : Nat) :
    spanSum (methodsHeaderRow o lvl) = numberOfCols o := by
  unfold spanSum methodsHeaderRow numberOfCols
  cases h : o.L2.isSome <;> simp [h]

theorem spanSum_deploymentsSubtitleRow (o : GasReporterOptions) (lvl : Nat) :
    spanSum (deploymentsSubtitleRow o lvl) = numberOfCols o := by
  unfold spanSum deploymentsSubtitleRow numberOfCols deploymentsTitleSpacerWidth
  cases h : o.L2.isSome <;> simp [h]

theorem spanSum_keyTitleRow (o : GasReporterOptions) (lvl : Nat) :
    spanSum (keyTitleRow o lvl) = numberOfCols o := by
  simp [spanSum, keyTitleRow]

theorem spanSum_keyCallRow (o : GasReporterOptions) (lvl : Nat) :
    spanSum (keyCallRow o lvl) = numberOfCols o := by
  simp [spanSum, keyCallRow]

theorem spanSum_keyAirRow (o : GasReporterOptions) (lvl : Nat) :
    spanSum (keyAirRow o lvl) = numberOfCols o := by
  simp [spanSum, keyAirRow]

/-- C1: for every snapshot and options, every row of the emitted table has the
same total column span: the cell colSpans of each row (title, compiler/config
row, network/price row, methods header, contract-header rows, method rows,
deployments subtitle, deployment rows, key rows) sum to `numberOfCols o`,
which is 7 when `options.L2` is unset and 8 when it is set and is decided once
before any row is built. -/
theorem c1_every_row_spans_numberOfCols (lvlBefore : Nat) (hre : HardhatRuntimeEnvironment)
    (data : GasData) (o : GasReporterOptions) :
    ∀ row ∈ (generateTerminalTextTable lvlBefore hre data o).table,
      spanSum row = numberOfCols o := by
  intro row hrow
  simp only [generateTerminalTextTable] at hrow
  rcases List.mem_append.mp hrow with hrow | hrow
  · rcases List.mem_append.mp hrow with hrow | hrow
    · rcases List.mem_append.mp hrow with hrow | hrow
      · simp only [List.mem_cons, List.not_mem_nil, or_false] at hrow
        rcases hrow with rfl | rfl | rfl | rfl
        · exact spanSum_titleRow o _
        · exact spanSum_solcConfigRow hre o _
        · exact spanSum_networkConfigRow o _
        · exact spanSum_methodsHeaderRow o _
      · obtain ⟨s, hs, rfl⟩ := List.mem_map.mp hrow
        unfold sortedMethodSections at hs
        have hs' := (List.perm_insertionSort sectionRel _).mem_iff.mp hs
        exact spanSum_processMethods o _ hs'
    · split at hrow
      case isTrue =>
        rcases List.mem_cons.mp hrow with rfl | hrow
        · exact spanSum_deploymentsSubtitleRow o _
        · unfold deployRowsOf at hrow
          obtain ⟨d, hd, rfl⟩ := List.mem_map.mp hrow
          exact spanSum_buildDeployRow o _ d
      case isFalse => simp at hrow
  · simp only [List.mem_cons, List.not_mem_nil, or_false] at hrow
    rcases hrow with rfl | rfl | rfl
    · exact spanSum_keyTitleRow o _
    · exact spanSum_keyCallRow o _
    · exact spanSum_keyAirRow o _

/-- Concrete method record for witnesses: the spec's `Token.transfer`
scenario. -/
def wMethodTransfer : MethodDataItem :=
  { contract := "Token", method := "transfer", fnSig := "transfer(address,uint256)",
    gasData := [21000, 23000], numberOfCalls := 2, executionGasAverage := some 22000,
    min := some 21000, max := some 23000 }

/-- Concrete compiler/chain collaborator data for witnesses. -/
def wHre : HardhatRuntimeEnvironment :=
  { solcInfo := { version := "0.8.24", optimizer := "enabled", viaIR := false, runs := 200 },
    blockGasLimit := some 30000000 }

/-- Concrete snapshot for the C1 witness. -/
def w1data : GasData :=
  { methods := [some wMethodTransfer]
    deployments := [{ name := "Token", gasData := [500000],
                      executionGasAverage := some 500000, percent := some 10 }] }

/-- Default options for witnesses. -/
def wOpts : GasReporterOptions := {}

/-- Witness for C1 at a concrete snapshot: the title row is a row of the
emitted table, and its colSpans sum to the decided column count. -/
theorem c1_witness :
    titleRow wOpts (chalkLevelOf wOpts) ∈
      (generateTerminalTextTable 0 wHre w1data wOpts).table ∧
    spanSum (titleRow wOpts (chalkLevelOf wOpts)) = numberOfCols wOpts :=
  ⟨by decide,
   c1_every_row_spans_numberOfCols 0 wHre w1data wOpts _ (by decide)⟩

/-- C9: every render call sets the process-wide chalk capability level at the
start of the call — 0 precisely when `options.noColors` is set or an output
file is configured, 1 otherwise — and leaves it in that state afterward; the
entire result is independent of the level found on entry (the call never reads
the prior level). -/
theorem c9_chalk_level_toggle (lvlBefore lvlBefore' : Nat)
    (hre : HardhatRuntimeEnvironment) (data : GasData) (o : GasReporterOptions) :
    (generateTerminalTextTable lvlBefore hre data o).chalkLevel =
      (if o.noColors || o.outputFile.isSome then 0 else 1) ∧
    generateTerminalTextTable lvlBefore hre data o =
      generateTerminalTextTable lvlBefore' hre data o :=
  ⟨rfl, rfl⟩

/-- Deployment records for the C2 counterexample, deliberately out of
alphabetical order. -/
def c2depBeta : Deployment := { name := "Beta", gasData := [100] }

/-- Second C2 counterexample deployment. -/
def c2depAlpha : Deployment := { name := "Alpha", gasData := [200] }

/-- Snapshot for the C2 counterexample. -/
def c2data : GasData := { methods := [], deployments := [c2depBeta, c2depAlpha] }

/-- C2 counterexample: the render call does mutate the `GasSnapshot` it is
given — on a snapshot whose deployments arrive as [Beta, Alpha], the
deployments collection after the call is not identical to the one before,
because line 151 sorts `data.deployments` in place. -/
theorem c2_counterexample :
    (generateTerminalTextTable 0 wHre c2data wOpts).dataAfter.deployments ≠
      c2data.deployments := by decide

/-- C2 amended: the render call never touches the methods collection and
neither adds, removes nor alters deployment records, but it does reorder the
deployments collection in place: afterwards it is a permutation of the input
that is sorted by contract name under the deployment comparator. -/
theorem c2_amended_read_only_except_deployment_order (lvlBefore : Nat)
    (hre : HardhatRuntimeEnvironment) (data : GasData) (o : GasReporterOptions) :
    (generateTerminalTextTable lvlBefore hre data o).dataAfter.methods = data.methods ∧
    ((generateTerminalTextTable lvlBefore hre data o).dataAfter.deployments).Perm
      data.deployments ∧
    ((generateTerminalTextTable lvlBefore hre data o).dataAfter.deployments).Pairwise
      deploymentRel := by
  refine ⟨rfl, ?_, ?_⟩
  · simp only [generateTerminalTextTable]
    exact List.perm_insertionSort deploymentRel data.deployments
  · simp only [generateTerminalTextTable]
    exact List.sorted_insertionSort deploymentRel data.deployments

/-- C8: the network/price summary row is the third row of the emitted table;
it carries network-name, L1-price, an L2-price cell exactly in L2 mode and the
combined rate cell exactly when both the token price and the gas price are
configured (truthy); otherwise it is the single "Methods" banner cell spanning
all columns. -/
theorem c8_network_price_row (lvlBefore : Nat) (hre : HardhatRuntimeEnvironment)
    (data : GasData) (o : GasReporterOptions) :
    (generateTerminalTextTable lvlBefore hre data o).table.get? 2 =
      some (networkConfigRow o (chalkLevelOf o)) ∧
    networkConfigRow o (chalkLevelOf o) =
      (if jsTruthyStr o.tokenPrice && jsTruthyQ o.gasPrice then
        [⟨.left, 2, .str (chalkCyan (chalkLevelOf o)
            ("Network: " ++ (getCommonTableVals o).network))⟩,
         ⟨.left, 2, .str (chalkCyan (chalkLevelOf o)
            ("L1: " ++ (getCommonTableVals o).l1gwei ++ " gwei "
              ++ (getCommonTableVals o).l1gweiNote))⟩]
        ++ (if o.L2.isSome then
              [⟨.left, 2, .str (chalkCyan (chalkLevelOf o)
                  ("L2: " ++ (getCommonTableVals o).l2gwei ++ " gwei "
                    ++ (getCommonTableVals o).l2gweiNote))⟩]
            else [⟨.left, 1, .str " "⟩])
        ++ [⟨.center, 2, .str (chalkMagenta (chalkLevelOf o)
            ((getCommonTableVals o).rate ++ " " ++ (getCommonTableVals o).currency
              ++ "/" ++ (getCommonTableVals o).token))⟩]
      else [⟨.left, numberOfCols o, .str (chalkGreenBold (chalkLevelOf o) "Methods")⟩]) := by
  constructor
  · rfl
  · unfold networkConfigRow
    rfl

/-! Per-record statistics facts. -/

theorem methodStats_executionGasAverage_of_uncalled (o : GasReporterOptions) (lvl : Nat)
    (m : MethodDataItem) (hgas : m.gasData = []) :
    (methodStats o lvl m).executionGasAverage = chalkGrey lvl "-" := by
  unfold methodStats
  simp [hgas, apply_ite MethodStats.executionGasAverage]

theorem methodStats_cost_of_uncalled (o : GasReporterOptions) (lvl : Nat)
    (m : MethodDataItem) (hgas : m.gasData = []) :
    (methodStats o lvl m).cost = .str (chalkGrey lvl "-") := by
  unfold methodStats
  simp [hgas, apply_ite MethodStats.cost]

theorem methodStats_cost_below_precision (o : GasReporterOptions) (lvl : Nat)
    (m : MethodDataItem) (p : Nat) (c : ℚ) (hp : o.currencyDisplayPrecision = some p)
    (hgas : m.gasData ≠ []) (hmc : m.cost = some c)
    (hc : c < getSmallestPrecisionVal p) :
    (methodStats o lvl m).cost = .str UNICODE_TRIANGLE := by
  have hlen : 0 < m.gasData.length := List.length_pos.mpr hgas
  unfold methodStats
  simp [hlen, hmc, hp, hc, apply_ite MethodStats.cost]

theorem methodStats_min_max_truthy (o : GasReporterOptions) (lvl : Nat)
    (m : MethodDataItem) (a b : Nat) (hmin : m.min = some a) (hmax : m.max = some b)
    (ha : a ≠ 0) (hb : b ≠ 0) :
    (methodStats o lvl m).min =
      .str (if a = b then chalkGrey lvl "-" else chalkCyan lvl (commify a)) ∧
    (methodStats o lvl m).max =
      .str (if a = b then chalkGrey lvl "-" else chalkRed lvl (commify b)) := by
  unfold methodStats
  simp [hmin, hmax, ha, hb, jsTruthyNat]

theorem deployStats_cost_below_precision (o : GasReporterOptions) (lvl : Nat)
    (d : Deployment) (p : Nat) (c : ℚ) (hp : o.currencyDisplayPrecision = some p)
    (hdc : d.cost = some c) (hc : c < getSmallestPrecisionVal p) :
    (deployStats o lvl d).cost = .str UNICODE_TRIANGLE := by
  unfold deployStats
  simp [hdc, hp, hc, apply_ite DeployStats.cost]

theorem deployStats_min_max_truthy (o : GasReporterOptions) (lvl : Nat)
    (d : Deployment) (a b : Nat) (hmin : d.min = some a) (hmax : d.max = some b)
    (ha : a ≠ 0) (hb : b ≠ 0) :
    (deployStats o lvl d).min =
      .str (if a = b then chalkGrey lvl "-" else chalkCyan lvl (commify a)) ∧
    (deployStats o lvl d).max =
      .str (if a = b then chalkGrey lvl "-" else chalkRed lvl (commify b)) := by
  unfold deployStats
  simp [hmin, hmax, ha, hb, jsTruthyNat]

theorem buildMethodRow_min_cell (o : GasReporterOptions) (lvl : Nat) (m : MethodDataItem) :
    (buildMethodRow o lvl m).get? 1 = some ⟨.right, 1, (methodStats o lvl m).min⟩ := by
  unfold buildMethodRow
  rfl

theorem buildMethodRow_max_cell (o : GasReporterOptions) (lvl : Nat) (m : MethodDataItem) :
    (buildMethodRow o lvl m).get? 2 = some ⟨.right, 1, (methodStats o lvl m).max⟩ := by
  unfold buildMethodRow
  rfl

theorem buildMethodRow_exec_cell (o : GasReporterOptions) (lvl : Nat) (m : MethodDataItem) :
    (buildMethodRow o lvl m).get? 3 =
      some ⟨.right, 1, .str (methodStats o lvl m).executionGasAverage⟩ := by
  unfold buildMethodRow
  rfl

theorem buildMethodRow_cost_cell (o : GasReporterOptions) (lvl : Nat) (m : MethodDataItem) :
    (buildMethodRow o lvl m).get? (if o.L2.isSome then 6 else 5) =
      some ⟨.right, 1, .str (chalkGreen lvl (methodStats o lvl m).cost.toStr)⟩ := by
  unfold buildMethodRow
  cases h : o.L2.isSome <;> simp [h]

theorem buildDeployRow_min_cell (o : GasReporterOptions) (lvl : Nat) (d : Deployment) :
    (buildDeployRow o lvl d).get? 1 = some ⟨.right, 1, (deployStats o lvl d).min⟩ := by
  unfold buildDeployRow
  rfl

theorem buildDeployRow_max_cell (o : GasReporterOptions) (lvl : Nat) (d : Deployment) :
    (buildDeployRow o lvl d).get? 2 = some ⟨.right, 1, (deployStats o lvl d).max⟩ := by
  unfold buildDeployRow
  rfl

theorem buildDeployRow_cost_cell (o : GasReporterOptions) (lvl : Nat) (d : Deployment) :
    (buildDeployRow o lvl d).get? (if o.L2.isSome then 6 else 5) =
      some ⟨.right, 1, .str (chalkGreen lvl (deployStats o lvl d).cost.toStr)⟩ := by
  unfold buildDeployRow
  cases h : o.L2.isSome <;> simp [h]

/-- C4: a method record with zero recorded calls yields no sections at all
when `showUncalledMethods` is off; when it is on, it yields exactly one method
row, whose execution-average cell is the grey dash placeholder and whose cost
cell is the (green-styled) dash placeholder. -/
theorem c4_uncalled_method_row (o : GasReporterOptions) (lvl : Nat) (added : List String)
    (m : MethodDataItem) (hcalls : m.numberOfCalls = 0) (hgas : m.gasData = []) :
    (o.showUncalledMethods = false → methodSectionsFor o lvl added m = []) ∧
    (o.showUncalledMethods = true →
      methodSectionsFor o lvl added m = [methodSection o lvl m] ∧
      (buildMethodRow o lvl m).get? 3 = some ⟨.right, 1, .str (chalkGrey lvl "-")⟩ ∧
      (buildMethodRow o lvl m).get? (if o.L2.isSome then 6 else 5) =
        some ⟨.right, 1, .str (chalkGreen lvl (chalkGrey lvl "-"))⟩) := by
  constructor
  · intro hsu
    unfold methodSectionsFor
    simp [hsu, hgas, hcalls]
  · intro hsu
    refine ⟨?_, ?_, ?_⟩
    · unfold methodSectionsFor
      simp [hsu, hgas]
    · rw [buildMethodRow_exec_cell, methodStats_executionGasAverage_of_uncalled o lvl m hgas]
    · rw [buildMethodRow_cost_cell, methodStats_cost_of_uncalled o lvl m hgas]
      rfl

/-- Method record and options for the C4 witness. -/
def c4m : MethodDataItem :=
  { contract := "Token", method := "unused", fnSig := "unused()", gasData := [],
    numberOfCalls := 0 }

/-- Options with `showUncalledMethods` switched on. -/
def c4opts : GasReporterOptions := { showUncalledMethods := true }

/-- Witness for C4: the concrete zero-call record yields exactly one method
row under `showUncalledMethods`. -/
theorem c4_witness :
    c4m.numberOfCalls = 0 ∧ c4m.gasData = [] ∧
    methodSectionsFor c4opts 1 [] c4m = [methodSection c4opts 1 c4m] :=
  ⟨rfl, rfl, ((c4_uncalled_method_row c4opts 1 [] c4m rfl rfl).2 rfl).1⟩

/-- Record for the C5 counterexample: non-empty recorded calls with
min = max = 0. -/
def c5zero : MethodDataItem :=
  { contract := "C", method := "zero", fnSig := "zero()", gasData := [0],
    numberOfCalls := 1, executionGasAverage := some 0, min := some 0, max := some 0 }

/-- C5 counterexample: a record with non-empty recorded calls and min = max
(both 0) renders `undefined` min and max cells, not the dash placeholder —
the dash logic sits behind the JavaScript truthiness test
`method.min && method.max` (line 110), which fails at 0. -/
theorem c5_counterexample :
    (buildMethodRow wOpts 0 c5zero).get? 1 = some ⟨.right, 1, .undef⟩ ∧
    (buildMethodRow wOpts 0 c5zero).get? 2 = some ⟨.right, 1, .undef⟩ ∧
    (buildMethodRow wOpts 0 c5zero).get? 1 ≠
      some ⟨.right, 1, .str (chalkGrey 0 "-")⟩ := by
  decide

/-- C5 amended: for method or deployment records with non-empty recorded
calls whose min and max are both nonzero, min = max renders both cells as the
dash placeholder, and min ≠ max renders min commified in cyan highlight and
max commified in red highlight. -/
theorem c5_amended_min_max_dash (o : GasReporterOptions) (lvl : Nat)
    (m : MethodDataItem) (d : Deployment) (a b a' b' : Nat)
    (hmgas : m.gasData ≠ []) (hmin : m.min = some a) (hmax : m.max = some b)
    (ha : a ≠ 0) (hb : b ≠ 0)
    (hdgas : d.gasData ≠ []) (hdmin : d.min = some a') (hdmax : d.max = some b')
    (ha' : a' ≠ 0) (hb' : b' ≠ 0) :
    ((a = b →
        (buildMethodRow o lvl m).get? 1 = some ⟨.right, 1, .str (chalkGrey lvl "-")⟩ ∧
        (buildMethodRow o lvl m).get? 2 = some ⟨.right, 1, .str (chalkGrey lvl "-")⟩) ∧
     (a ≠ b →
        (buildMethodRow o lvl m).get? 1 =
          some ⟨.right, 1, .str (chalkCyan lvl (commify a))⟩ ∧
        (buildMethodRow o lvl m).get? 2 =
          some ⟨.right, 1, .str (chalkRed lvl (commify b))⟩)) ∧
    ((a' = b' →
        (buildDeployRow o lvl d).get? 1 = some ⟨.right, 1, .str (chalkGrey lvl "-")⟩ ∧
        (buildDeployRow o lvl d).get? 2 = some ⟨.right, 1, .str (chalkGrey lvl "-")⟩) ∧
     (a' ≠ b' →
        (buildDeployRow o lvl d).get? 1 =
          some ⟨.right, 1, .str (chalkCyan lvl (commify a'))⟩ ∧
        (buildDeployRow o lvl d).get? 2 =
          some ⟨.right, 1, .str (chalkRed lvl (commify b'))⟩)) := by
  obtain ⟨hm1, hm2⟩ := methodStats_min_max_truthy o lvl m a b hmin hmax ha hb
  obtain ⟨hd1, hd2⟩ := deployStats_min_max_truthy o lvl d a' b' hdmin hdmax ha' hb'
  refine ⟨⟨fun hab => ?_, fun hab => ?_⟩, ⟨fun hab => ?_, fun hab => ?_⟩⟩
  · exact ⟨by rw [buildMethodRow_min_cell, hm1, if_pos hab],
           by rw [buildMethodRow_max_cell, hm2, if_pos hab]⟩
  · exact ⟨by rw [buildMethodRow_min_cell, hm1, if_neg hab],
           by rw [buildMethodRow_max_cell, hm2, if_neg hab]⟩
  · exact ⟨by rw [buildDeployRow_min_cell, hd1, if_pos hab],
           by rw [buildDeployRow_max_cell, hd2, if_pos hab]⟩
  · exact ⟨by rw [buildDeployRow_min_cell, hd1, if_neg hab],
           by rw [buildDeployRow_max_cell, hd2, if_neg hab]⟩

/-- Method record for the C5 witness (uniform min/max). -/
def c5m : MethodDataItem :=
  { contract := "Token", method := "t", fnSig := "t()", gasData := [21000, 21000],
    numberOfCalls := 2, executionGasAverage := some 21000, min := some 21000,
    max := some 21000 }

/-- Deployment record for the C5 witness (distinct min/max). -/
def c5d : Deployment :=
  { name := "Token", gasData := [400000], executionGasAverage := some 400000,
    min := some 300000, max := some 400000, percent := some 1 }

/-- Witness for C5 (amended): uniform min/max gives the dash cell, distinct
min/max gives the cyan-commified min cell. -/
theorem c5_witness :
    (buildMethodRow wOpts 1 c5m).get? 1 = some ⟨.right, 1, .str (chalkGrey 1 "-")⟩ ∧
    (buildDeployRow wOpts 1 c5d).get? 1 =
      some ⟨.right, 1, .str (chalkCyan 1 (commify 300000))⟩ :=
  ⟨(((c5_amended_min_max_dash wOpts 1 c5m c5d 21000 21000 300000 400000 (by decide) rfl rfl
        (by decide) (by decide) (by decide) rfl rfl (by decide) (by decide)).1.1) rfl).1,
   (((c5_amended_min_max_dash wOpts 1 c5m c5d 21000 21000 300000 400000 (by decide) rfl rfl
        (by decide) (by decide) (by decide) rfl rfl (by decide) (by decide)).2.2)
      (by decide)).1⟩

/-- C6: when a record's cost is a number strictly between 0 and the smallest
representable unit at the configured display precision, the rendered cost cell
is the below-precision marker glyph (the green-styled UNICODE_TRIANGLE), never
a numeric rendering — for method rows and deployment rows alike. -/
theorem c6_below_precision_marker (o : GasReporterOptions) (lvl : Nat)
    (m : MethodDataItem) (d : Deployment) (p : Nat) (c c' : ℚ)
    (hp : o.currencyDisplayPrecision = some p)
    (hmgas : m.gasData ≠ []) (hmc : m.cost = some c) (hc0 : 0 < c)
    (hc : c < getSmallestPrecisionVal p)
    (hdc : d.cost = some c') (hc0' : 0 < c') (hc' : c' < getSmallestPrecisionVal p) :
    (buildMethodRow o lvl m).get? (if o.L2.isSome then 6 else 5) =
      some ⟨.right, 1, .str (chalkGreen lvl UNICODE_TRIANGLE)⟩ ∧
    (buildDeployRow o lvl d).get? (if o.L2.isSome then 6 else 5) =
      some ⟨.right, 1, .str (chalkGreen lvl UNICODE_TRIANGLE)⟩ := by
  constructor
  · rw [buildMethodRow_cost_cell,
      methodStats_cost_below_precision o lvl m p c hp hmgas hmc hc]
    rfl
  · rw [buildDeployRow_cost_cell,
      deployStats_cost_below_precision o lvl d p c' hp hdc hc']
    rfl

/-- Method record for the C6 witness (cost 0.005, precision 2). -/
def c6m : MethodDataItem :=
  { contract := "Token", method := "cheap", fnSig := "cheap()", gasData := [21000],
    numberOfCalls := 1, executionGasAverage := some 21000, cost := some (1/200) }

/-- Deployment record for the C6 witness. -/
def c6d : Deployment :=
  { name := "Token", gasData := [21000], executionGasAverage := some 21000,
    cost := some (1/200), percent := some 1 }

/-- Witness for C6: cost 0.005 at precision 2 renders the triangle glyph. -/
theorem c6_witness :
    (0 : ℚ) < 1/200 ∧ (1/200 : ℚ) < getSmallestPrecisionVal 2 ∧
    (buildMethodRow wOpts 1 c6m).get? (if wOpts.L2.isSome then 6 else 5) =
      some ⟨.right, 1, .str (chalkGreen 1 UNICODE_TRIANGLE)⟩ :=
  ⟨by norm_num, by norm_num [getSmallestPrecisionVal],
   (c6_below_precision_marker wOpts 1 c6m c6d 2 (1/200) (1/200) rfl (by decide) rfl
      (by norm_num) (by norm_num [getSmallestPrecisionVal]) rfl (by norm_num)
      (by norm_num [getSmallestPrecisionVal])).1⟩

/-- C7: the deployment rows of the emitted table come from the name-sorted
deployments — the records that get a row stand pairwise in ascending
comparator order by name, whatever the input order — and every record with no
recorded calls is skipped: the row count equals the number of records with
recorded calls, and every emitted row stems from a record with recorded
calls. -/
theorem c7_deployment_rows_sorted_and_skipping (lvlBefore : Nat)
    (hre : HardhatRuntimeEnvironment) (data : GasData) (o : GasReporterOptions) :
    (((generateTerminalTextTable lvlBefore hre data o).dataAfter.deployments).filter
        (fun d => decide (0 < d.gasData.length))).Pairwise deploymentRel ∧
    (deployRowsOf o (chalkLevelOf o)
        (generateTerminalTextTable lvlBefore hre data o).dataAfter.deployments).length =
      data.deployments.countP (fun d => decide (0 < d.gasData.length)) ∧
    ∀ row ∈ deployRowsOf o (chalkLevelOf o)
        (generateTerminalTextTable lvlBefore hre data o).dataAfter.deployments,
      ∃ d, d ∈ data.deployments ∧ 0 < d.gasData.length ∧
        row = buildDeployRow o (chalkLevelOf o) d := by
  have hperm := List.perm_insertionSort deploymentRel data.deployments
  refine ⟨?_, ?_, ?_⟩
  · simp only [generateTerminalTextTable]
    exact (List.sorted_insertionSort deploymentRel data.deployments).filter _
  · simp only [generateTerminalTextTable, deployRowsOf, List.length_map]
    rw [← List.countP_eq_length_filter]
    exact hperm.countP_eq _
  · intro row hrow
    simp only [generateTerminalTextTable, deployRowsOf] at hrow
    obtain ⟨d, hd, rfl⟩ := List.mem_map.mp hrow
    obtain ⟨hdmem, hdp⟩ := List.mem_filter.mp hd
    exact ⟨d, hperm.mem_iff.mp hdmem, by simpa using hdp, rfl⟩

/-- Called deployment for the C7 witness, alphabetically last. -/
def c7dZeta : Deployment :=
  { name := "Zeta", gasData := [100], executionGasAverage := some 100, percent := some 1 }

/-- Uncalled deployment for the C7 witness. -/
def c7dAlphaUncalled : Deployment := { name := "Alpha", gasData := [] }

/-- Called deployment for the C7 witness, alphabetically in the middle. -/
def c7dMid : Deployment :=
  { name := "Mid", gasData := [50], executionGasAverage := some 50, percent := some 1 }

/-- Snapshot for the C7 witness, deployments out of order with one uncalled. -/
def c7data : GasData :=
  { methods := [], deployments := [c7dZeta, c7dAlphaUncalled, c7dMid] }

/-- Witness for C7: the emitted row of the concrete snapshot stems from a
record with recorded calls. -/
theorem c7_witness :
    ∃ d, d ∈ c7data.deployments ∧ 0 < d.gasData.length ∧
      buildDeployRow wOpts (chalkLevelOf wOpts) c7dMid =
        buildDeployRow wOpts (chalkLevelOf wOpts) d :=
  (c7_deployment_rows_sorted_and_skipping 0 wHre c7data wOpts).2.2
    (buildDeployRow wOpts (chalkLevelOf wOpts) c7dMid) (by decide)

/-! Ordering facts for the sorted method sections. -/

theorem hasCalledRecord_of_mem {l : List (Option MethodDataItem)} {m : MethodDataItem}
    (hm : some m ∈ l) (hg : 0 < m.gasData.length) :
    hasCalledRecord m.contract l = true := by
  unfold hasCalledRecord
  rw [List.any_eq_true]
  exact ⟨some m, hm, by simp [hg]⟩

theorem hasCalledRecord_eq_false {c : String} {l : List (Option MethodDataItem)}
    (h : ∀ m : MethodDataItem, some m ∈ l → m.contract = c → m.gasData = []) :
    hasCalledRecord c l = false := by
  unfold hasCalledRecord
  rw [List.any_eq_false]
  rintro (_ | m) hm
  · simp
  · simp only [Bool.and_eq_true, beq_iff_eq, decide_eq_true_eq, not_and]
    intro hc
    rw [h m hm hc]
    simp

theorem sectionRel_contract_le {a b : Section} (h : sectionRel a b) :
    localeCompare a.contractName b.contractName ≤ 0 := by
  unfold sectionRel sectionComparator jsOrInt at h
  by_cases hc : localeCompare a.contractName b.contractName = 0
  · exact le_of_eq hc
  · rw [if_neg hc] at h
    exact h

theorem sectionRel_method_le {a b : Section} (h : sectionRel a b)
    (hc : a.contractName = b.contractName) :
    localeCompare a.methodName b.methodName ≤ 0 := by
  unfold sectionRel sectionComparator jsOrInt at h
  have h0 : localeCompare a.contractName b.contractName = 0 := by
    rw [hc]
    exact localeCompare_self _
  rw [if_pos h0] at h
  exact h

theorem section_classify {o : GasReporterOptions} {lvl : Nat}
    {l : List (Option MethodDataItem)} {added : List String} {s : Section}
    (h : s ∈ processMethods o lvl l added) :
    (isHeaderSection s = true →
      s.methodName = "0" ∧ hasCalledRecord s.contractName l = true) ∧
    (isHeaderSection s = false →
      ∃ m, some m ∈ l ∧ m.contract = s.contractName ∧
        s.methodName = displayedName o m ∧
        (o.showUncalledMethods = true ∨ 0 < m.numberOfCalls)) := by
  obtain ⟨m, hm, hcn, hcase⟩ := mem_processMethods o lvl h
  rcases hcase with ⟨heq, hg⟩ | ⟨heq, hcond⟩
  · constructor
    · intro _
      refine ⟨by rw [heq]; rfl, ?_⟩
      rw [← hcn]
      exact hasCalledRecord_of_mem hm hg
    · intro hf
      rw [heq, isHeaderSection_contractNameSection] at hf
      exact absurd hf (by simp)
  · constructor
    · intro ht
      rw [heq, isHeaderSection_methodSection] at ht
      exact absurd ht (by simp)
    · intro _
      exact ⟨m, hm, hcn, by rw [heq]; rfl, hcond⟩

/-- C3 amended: restricted to snapshots whose displayed method names all
strictly follow the sentinel "0" in the comparator order, and whose emitted
method rows all belong to contracts having at least one record with recorded
calls, the emitted method sections satisfy: (i) contracts appear grouped, in
ascending comparator order; (ii) sections of one contract appear in ascending
method-key order (headers carry the key "0", so the header leads its block);
(iii) each contract that appears has exactly one header; (iv) no method row of
a contract ever precedes that contract's header. -/
theorem c3_amended_method_rows_order (o : GasReporterOptions) (lvl : Nat)
    (l : List (Option MethodDataItem))
    (hname : ∀ m : MethodDataItem, some m ∈ l →
      localeCompare "0" (displayedName o m) < 0)
    (hcalled : ∀ m : MethodDataItem, some m ∈ l →
      (o.showUncalledMethods = true ∨ 0 < m.numberOfCalls) →
      hasCalledRecord m.contract l = true) :
    (sortedMethodSections o lvl l).Pairwise
      (fun a b => localeCompare a.contractName b.contractName ≤ 0) ∧
    (sortedMethodSections o lvl l).Pairwise
      (fun a b => a.contractName = b.contractName →
        localeCompare a.methodName b.methodName ≤ 0) ∧
    (∀ c, (∃ s ∈ sortedMethodSections o lvl l, s.contractName = c) →
      headerCount c (sortedMethodSections o lvl l) = 1) ∧
    (∀ i j : Fin (sortedMethodSections o lvl l).length, (i : Nat) < (j : Nat) →
      ((sortedMethodSections o lvl l).get i).contractName =
        ((sortedMethodSections o lvl l).get j).contractName →
      isHeaderSection ((sortedMethodSections o lvl l).get j) = true →
      isHeaderSection ((sortedMethodSections o lvl l).get i) = true) := by
  have hsorted : (sortedMethodSections o lvl l).Pairwise sectionRel :=
    List.sorted_insertionSort sectionRel _
  have hperm : (sortedMethodSections o lvl l).Perm (processMethods o lvl l []) :=
    List.perm_insertionSort sectionRel _
  refine ⟨?_, ?_, ?_, ?_⟩
  · exact hsorted.imp fun h => sectionRel_contract_le h
  · exact hsorted.imp fun h hc => sectionRel_method_le h hc
  · rintro c ⟨s, hs, hsc⟩
    have hsP := hperm.mem_iff.mp hs
    have hcls := section_classify hsP
    have hcalledc : hasCalledRecord c l = true := by
      by_cases hhead : isHeaderSection s = true
      · obtain ⟨-, hcc⟩ := hcls.1 hhead
        rw [hsc] at hcc
        exact hcc
      · obtain ⟨m, hm', hcn, -, hcond⟩ := hcls.2 (by simpa using hhead)
        have hh := hcalled m hm' hcond
        rw [hcn, hsc] at hh
        exact hh
    unfold headerCount
    rw [hperm.countP_eq]
    have hcount := headerCount_processMethods o lvl c l []
    unfold headerCount at hcount
    rw [hcount]
    simp [hcalledc]
  · intro i j hij hcn hj
    by_contra hi
    have hrel : sectionRel ((sortedMethodSections o lvl l).get i)
        ((sortedMethodSections o lvl l).get j) :=
      List.pairwise_iff_get.mp hsorted i j hij
    have hiP := hperm.mem_iff.mp (List.get_mem _ i.1 i.2)
    have hjP := hperm.mem_iff.mp (List.get_mem _ j.1 j.2)
    obtain ⟨m, hm, -, hni, -⟩ :=
      (section_classify hiP).2 (by simpa using hi)
    obtain ⟨hnj, -⟩ := (section_classify hjP).1 hj
    have hle := sectionRel_method_le hrel hcn
    rw [hni, hnj, localeCompare_swap] at hle
    have hgt := hname m hm
    omega

/-- Method for the C3 counterexample whose displayed name "$burn" precedes the
sentinel "0" in the comparator order. -/
def c3mDollar : MethodDataItem :=
  { contract := "A", method := "$burn", fnSig := "$burn()", gasData := [21000, 21000],
    numberOfCalls := 2, executionGasAverage := some 21000, min := some 21000,
    max := some 21000 }

/-- Method for the C3 counterexample in a contract whose records all have zero
calls. -/
def c3mUncalled : MethodDataItem :=
  { contract := "B", method := "foo", fnSig := "foo()", gasData := [], numberOfCalls := 0 }

/-- Options for the C3 counterexample. -/
def c3opts : GasReporterOptions := { noColors := true, showUncalledMethods := true }

/-- The emitted method sections of the C3 counterexample snapshot. -/
def c3sections : List Section :=
  sortedMethodSections c3opts 0 [some c3mDollar, some c3mUncalled]

/-- C3 counterexample: on the snapshot with methods `A.$burn` (called) and
`B.foo` (uncalled, shown via `showUncalledMethods`), the emitted method
sections are, in order: the method row ("A", "$burn"), then the header of "A"
(sentinel key "0"), then the method row ("B", "foo") — the "$burn" method row
precedes its contract header because "$burn" sorts before the sentinel "0",
and contract "B" has an emitted method row but no header at all. -/
theorem c3_counterexample :
    c3sections.map (fun s => (s.contractName, s.methodName)) =
      [("A", "$burn"), ("A", "0"), ("B", "foo")] ∧
    c3sections.map isHeaderSection = [false, true, false] ∧
    headerCount "B" c3sections = 0 ∧
    methodRowCount "B" c3sections = 1 := by
  decide

/-- Witness for C3 (amended) at the `Token.transfer` snapshot: contract
"Token" appears and has exactly one header section. -/
theorem c3_amended_witness :
    headerCount "Token" (sortedMethodSections wOpts 1 [some wMethodTransfer]) = 1 :=
  (c3_amended_method_rows_order wOpts 1 [some wMethodTransfer]
      (by
        intro m hm
        simp only [List.mem_cons, List.not_mem_nil, or_false, Option.some.injEq] at hm
        rw [hm]
        decide)
      (by
        intro m hm hcond
        simp only [List.mem_cons, List.not_mem_nil, or_false, Option.some.injEq] at hm
        rw [hm]
        decide)).2.2.1 "Token" (by decide)

/-- C10: (1) a contract-header row for contract `c` is emitted exactly when
some record of `c` has recorded calls; (2) it is emitted at the position where
the sections of the first called record of `c` begin, even when earlier
records of `c` had zero calls; and (3) a contract all of whose records have
zero calls never gets a header, even though with `showUncalledMethods` every
one of its records still produces a method row. -/
theorem c10_contract_header_emission (o : GasReporterOptions) (lvl : Nat) (c : String)
    (l ms₁ ms₂ : List (Option MethodDataItem)) (m : MethodDataItem) :
    (headerCount c (processMethods o lvl l []) =
      if hasCalledRecord c l = true then 1 else 0) ∧
    (l = ms₁ ++ some m :: ms₂ → m.contract = c → 0 < m.gasData.length →
      (∀ m' : MethodDataItem, some m' ∈ ms₁ → m'.contract = c → m'.gasData = []) →
      (processMethods o lvl l []).get? (processMethods o lvl ms₁ []).length =
        some (contractNameSection o lvl c)) ∧
    ((∀ m' : MethodDataItem, some m' ∈ l → m'.contract = c → m'.gasData = []) →
      headerCount c (processMethods o lvl l []) = 0 ∧
      (o.showUncalledMethods = true →
        methodRowCount c (processMethods o lvl l []) =
          l.countP (fun om => match om with
            | some m' => decide (m'.contract = c)
            | none => false))) := by
  refine ⟨?_, ?_, ?_⟩
  · rw [headerCount_processMethods o lvl c l []]
    simp
  · intro hl hmc hg hms₁
    subst hmc
    subst hl
    rw [processMethods_append]
    have hnc : m.contract ∉ addedAfter ms₁ [] := by
      rw [mem_addedAfter]
      rintro (h | h)
      · exact absurd h (List.not_mem_nil _)
      · rw [hasCalledRecord_eq_false hms₁] at h
        exact absurd h (by simp)
    have hcond : (!(addedAfter ms₁ []).contains m.contract
        && decide (0 < m.gasData.length)) = true := by
      simp [hnc, hg]
    rw [List.get?_append_right (le_refl _), Nat.sub_self]
    show (methodSectionsFor o lvl (addedAfter ms₁ []) m ++
        processMethods o lvl ms₂ (addedAfter1 (addedAfter ms₁ []) m)).get? 0 =
      some (contractNameSection o lvl m.contract)
    unfold methodSectionsFor
    simp only [hcond]
    simp
  · intro hall
    have hfalse := hasCalledRecord_eq_false hall
    constructor
    · rw [headerCount_processMethods o lvl c l []]
      simp [hfalse]
    · intro hsu
      rw [methodRowCount_processMethods o lvl c l []]
      apply List.countP_congr
      intro om hom
      cases om with
      | none => rfl
      | some m' => simp [hsu]

/-- Uncalled record of contract "B" preceding the called one, for the C10
witness. -/
def c10mUncalled : MethodDataItem :=
  { contract := "B", method := "idle", fnSig := "idle()", gasData := [],
    numberOfCalls := 0 }

/-- Called record of contract "B" for the C10 witness. -/
def c10mCalled : MethodDataItem :=
  { contract := "B", method := "work", fnSig := "work()", gasData := [30000],
    numberOfCalls := 1, executionGasAverage := some 30000, min := some 30000,
    max := some 30000 }

/-- Options for the C10 witness. -/
def c10opts : GasReporterOptions := { showUncalledMethods := true }

/-- Witness for C10: with the zero-call record of "B" first, the header of "B"
is emitted exactly where the first called record's sections begin. -/
theorem c10_witness :
    (processMethods c10opts 1 [some c10mUncalled, some c10mCalled] []).get?
        (processMethods c10opts 1 [some c10mUncalled] []).length =
      some (contractNameSection c10opts 1 "B") :=
  ((c10_contract_header_emission c10opts 1 "B" [some c10mUncalled, some c10mCalled]
      [some c10mUncalled] [] c10mCalled).2.1) rfl rfl (by decide)
    (by
      intro m' hm'
      simp only [List.mem_cons, List.not_mem_nil, or_false, Option.some.injEq] at hm'
      rw [hm']
      intro
      rfl)
